import Mathlib

/-!
Verification development for the grpc-poc performance-comparison engine.

The definitions below are a shallow embedding of the Node.js client core:
  * src/client/src/clients/grpcClient.js      (binary-RPC driver)
  * src/client/src/clients/httpClient.js      (HTTP driver)
  * src/client/src/services/orchestratorService.js (orchestrator + comparison engine)
and of the Java server payload generator
  * src/server/.../service/DataProcessingService.java (generatePayload).

JavaScript numbers are embedded as `JsNum`: a rational for every finite
double that the modelled code can produce, plus NaN and the two infinities
(the code never produces -0, so it is not modelled).  A JS `undefined` read
of an absent object field is embedded as `Option.none`; in arithmetic and
comparisons an absent field behaves exactly like NaN, which `jsVal` encodes.
Wall-clock durations (Date.now() differences) are opaque inputs, passed as
explicit parameters.  Network calls are oracles `Nat → Except String _`:
the i-th dispatched request either resolves with a client latency or rejects
with an error message.
-/

/-- JavaScript number semantics restricted to the values the modelled code
manipulates: finite values (as rationals), NaN, +Infinity, -Infinity. -/
inductive JsNum where
  | num (q : ℚ)
  | nan
  | inf
  | ninf
deriving DecidableEq, Repr

/-- A JS `undefined` operand behaves as NaN in arithmetic and comparisons. -/
def jsVal (o : Option JsNum) : JsNum := o.getD .nan

/-- JS division. `a / 0` is NaN when `a = 0`, otherwise a signed infinity
(the model has no negative zero). -/
def jsDiv : JsNum → JsNum → JsNum
  | .num a, .num b =>
      if b = 0 then (if a = 0 then .nan else if 0 < a then .inf else .ninf)
      else .num (a / b)
  | .nan, _ => .nan
  | _, .nan => .nan
  | .inf, .inf => .nan
  | .inf, .ninf => .nan
  | .ninf, .inf => .nan
  | .ninf, .ninf => .nan
  | .inf, .num b => if 0 ≤ b then .inf else .ninf
  | .ninf, .num b => if 0 ≤ b then .ninf else .inf
  | .num _, .inf => .num 0
  | .num _, .ninf => .num 0

/-- JS subtraction. -/
def jsSub : JsNum → JsNum → JsNum
  | .num a, .num b => .num (a - b)
  | .nan, _ => .nan
  | _, .nan => .nan
  | .inf, .inf => .nan
  | .ninf, .ninf => .nan
  | .inf, _ => .inf
  | .ninf, _ => .ninf
  | _, .inf => .ninf
  | _, .ninf => .inf

/-- JS multiplication. -/
def jsMul : JsNum → JsNum → JsNum
  | .num a, .num b => .num (a * b)
  | .nan, _ => .nan
  | _, .nan => .nan
  | .inf, .inf => .inf
  | .inf, .ninf => .ninf
  | .ninf, .inf => .ninf
  | .ninf, .ninf => .inf
  | .inf, .num b => if b = 0 then .nan else if 0 < b then .inf else .ninf
  | .num a, .inf => if a = 0 then .nan else if 0 < a then .inf else .ninf
  | .ninf, .num b => if b = 0 then .nan else if 0 < b then .ninf else .inf
  | .num a, .ninf => if a = 0 then .nan else if 0 < a then .ninf else .inf

/-- JS `x.toFixed(2)`, read back as a number.  ECMA-262 picks the integer n
minimising |n / 100 - x|, the larger n on a tie, which on rationals is
`round (x * 100)`.  `NaN.toFixed(2)` is "NaN" and `Infinity.toFixed(2)` is
"Infinity"; the model keeps those values. -/
def jsToFixed2 : JsNum → JsNum
  | .num q => .num (((round (q * 100) : ℤ) : ℚ) / 100)
  | x => x

/-- JS `>` comparison: any comparison involving NaN is false. -/
def jsCmpGt : JsNum → JsNum → Bool
  | .nan, _ => false
  | _, .nan => false
  | .inf, .inf => false
  | .inf, _ => true
  | _, .inf => false
  | .ninf, _ => false
  | .num _, .ninf => true
  | .num a, .num b => decide (b < a)

/-- JS `a > b` on possibly-undefined operands. -/
def jsGtO (x y : Option JsNum) : Bool := jsCmpGt (jsVal x) (jsVal y)

/-- JS `a < b` on possibly-undefined operands. -/
def jsLtO (x y : Option JsNum) : Bool := jsCmpGt (jsVal y) (jsVal x)

/-- Summary object returned by a driver `performanceTest`
(grpcClient.js:256-264, httpClient.js:136-145).  Neither driver puts a
`failedRequests` field in this object; the per-request `results` array is
dropped here because the orchestrator never stores it. -/
structure PerfResult where
  protocol : String
  totalRequests : Nat
  successfulRequests : Nat
  totalDuration : ℚ
  averageLatency : JsNum
  throughput : JsNum
deriving DecidableEq, Repr

/-- One entry of the orchestrator's transient `results` array
(orchestratorService.js:58-106): either a spread driver summary or the
catch-branch error literal.  Absent fields are `none`. -/
structure ProtoEntry where
  protocol : String
  totalRequests : Nat
  successfulRequests : Nat
  failedRequests : Option Nat
  averageLatency : Option JsNum
  throughput : Option JsNum
  totalDuration : Option ℚ
  error : Option String
deriving DecidableEq, Repr

/-- `results.push({ protocol: p, ...driverResult })` (orchestratorService.js:71,100):
the spread comes second, so the driver's own `protocol` field wins.  The
driver summary has no `failedRequests` and no `error` field. -/
def successEntry (r : PerfResult) : ProtoEntry :=
  { protocol := r.protocol
    totalRequests := r.totalRequests
    successfulRequests := r.successfulRequests
    failedRequests := none
    averageLatency := some r.averageLatency
    throughput := some r.throughput
    totalDuration := some r.totalDuration
    error := none }

/-- The catch-branch entry (orchestratorService.js:75,104):
`{ protocol, error: message, totalRequests: 0, successfulRequests: 0,
failedRequests: numRequests }`.  No latency/throughput/duration fields. -/
def errorEntry (proto msg : String) (numRequests : Nat) : ProtoEntry :=
  { protocol := proto
    totalRequests := 0
    successfulRequests := 0
    failedRequests := some numRequests
    averageLatency := none
    throughput := none
    totalDuration := none
    error := some msg }

/-- What `testResults.results[protocol]` ends up holding
(orchestratorService.js:109-120).  The forEach copies a fixed list of seven
fields; in particular `error` is never among them, so the stored record's
`error` field is always absent. -/
structure StoredResult where
  protocol : String
  totalRequests : Nat
  successfulRequests : Nat
  failedRequests : Option Nat
  averageLatency : Option JsNum
  throughput : Option JsNum
  totalDuration : Option ℚ
  error : Option String
deriving DecidableEq, Repr

/-- orchestratorService.js:109-120. -/
def storeResult (e : ProtoEntry) : StoredResult :=
  { protocol := e.protocol
    totalRequests := e.totalRequests
    successfulRequests := e.successfulRequests
    failedRequests := e.failedRequests
    averageLatency := e.averageLatency
    throughput := e.throughput
    totalDuration := e.totalDuration
    error := none }

/-- One value of `throughputComparison[p]` / `latencyComparison[p]`
(orchestratorService.js:167-180).  `improvement` holds the numeric reading
of the `.toFixed(2)` string. -/
structure CompEntry where
  value : Option JsNum
  relativeTo : String
  ratio : JsNum
  improvement : JsNum
deriving DecidableEq, Repr

/-- The `summary` block (orchestratorService.js:151-157,191-196). -/
structure CompSummary where
  fastestProtocol : Option String
  lowestLatencyProtocol : Option String
  maxThroughput : Option JsNum
  minLatency : Option JsNum
deriving DecidableEq, Repr

/-- Output of `calculateComparisonMetrics`.  The two comparison objects are
embedded as association lists in insertion order (all call sites use
pairwise-distinct protocol keys). -/
structure ComparisonMetrics where
  throughputComparison : List (String × CompEntry)
  latencyComparison : List (String × CompEntry)
  summary : CompSummary
deriving DecidableEq, Repr

/-- orchestratorService.js:167-172: value, relativeTo, ratio and the
toFixed(2) improvement percentage for throughput. -/
def mkThroughputEntry (r b : ProtoEntry) : CompEntry :=
  { value := r.throughput
    relativeTo := b.protocol
    ratio := jsDiv (jsVal r.throughput) (jsVal b.throughput)
    improvement :=
      jsToFixed2 (jsMul (jsDiv (jsSub (jsVal r.throughput) (jsVal b.throughput))
        (jsVal b.throughput)) (.num 100)) }

/-- orchestratorService.js:175-180: latency comparison; the improvement
subtraction is inverted (baseline minus value). -/
def mkLatencyEntry (r b : ProtoEntry) : CompEntry :=
  { value := r.averageLatency
    relativeTo := b.protocol
    ratio := jsDiv (jsVal r.averageLatency) (jsVal b.averageLatency)
    improvement :=
      jsToFixed2 (jsMul (jsDiv (jsSub (jsVal b.averageLatency) (jsVal r.averageLatency))
        (jsVal b.averageLatency)) (.num 100)) }

/-- orchestratorService.js:161: `results.find(r => r.protocol === 'grpc') || results[0]`,
or nothing when the array is empty. -/
def baselineOf (results : List ProtoEntry) : Option ProtoEntry :=
  match results with
  | [] => none
  | r0 :: rest => some (((r0 :: rest).find? (fun r => r.protocol == "grpc")).getD r0)

/-- orchestratorService.js:143-199, `calculateComparisonMetrics`.
The `reduce` calls start from the first element; `prev.throughput >
current.throughput ? prev : current` keeps `current` on ties and on any
NaN/undefined comparison. -/
def calculateComparisonMetrics (results : List ProtoEntry) : ComparisonMetrics :=
  match results with
  | [] =>
      { throughputComparison := []
        latencyComparison := []
        summary :=
          { fastestProtocol := none
            lowestLatencyProtocol := none
            maxThroughput := some (.num 0)
            minLatency := some (.num 0) } }
  | r0 :: rest =>
      let baselineResult := ((r0 :: rest).find? (fun r => r.protocol == "grpc")).getD r0
      let fastest := rest.foldl
        (fun prev cur => if jsGtO prev.throughput cur.throughput then prev else cur) r0
      let lowest := rest.foldl
        (fun prev cur => if jsLtO prev.averageLatency cur.averageLatency then prev else cur) r0
      { throughputComparison :=
          (r0 :: rest).map (fun r => (r.protocol, mkThroughputEntry r baselineResult))
        latencyComparison :=
          (r0 :: rest).map (fun r => (r.protocol, mkLatencyEntry r baselineResult))
        summary :=
          { fastestProtocol := some fastest.protocol
            lowestLatencyProtocol := some lowest.protocol
            maxThroughput := fastest.throughput
            minLatency := lowest.averageLatency } }

/-- The batch structure of the non-streaming `performanceTest` loops
(grpcClient.js:221-226, httpClient.js:111-116): the loop variable takes the
values `0, W, 2W, …` while `< N`, i.e. one batch per `b < ⌈N / W⌉`, and
batch `b` holds the `min W (N - b*W)` global request indices starting at
`b * W`.  A zero concurrency would never advance the JS loop; the caller
contract requires `concurrency ≥ 1`, and the model returns no batches for
`W = 0`. -/
def batchIndices (N W : Nat) : List (List Nat) :=
  if W = 0 then []
  else (List.range ((N + W - 1) / W)).map
    (fun b => (List.range (min W (N - b * W))).map (fun j => b * W + j))

/-- `Promise.all` over the requests of one batch, resolved through the
request oracle `f`: the conjunction of outcomes, rejecting with the error of
the first (lowest-index) failing request.  (JS rejects with the first
rejection in time; only which-error differs, not whether it rejects.) -/
def promiseAll {α : Type} (f : Nat → Except String α) : List Nat → Except String (List α)
  | [] => .ok []
  | i :: is =>
      match f i with
      | .error e => .error e
      | .ok a =>
          match promiseAll f is with
          | .error e => .error e
          | .ok as => .ok (a :: as)

/-- The sequential `for (const batchPromise of promises) await batchPromise`
loop (grpcClient.js:229-241, httpClient.js:119-122): settle the batches in
order, concatenating the fulfilled values, rethrowing the first rejection. -/
def runBatches (f : Nat → Except String ℚ) : List (List Nat) → Except String (List ℚ)
  | [] => .ok []
  | b :: bs =>
      match promiseAll f b with
      | .error e => .error e
      | .ok qs =>
          match runBatches f bs with
          | .error e => .error e
          | .ok rest => .ok (qs ++ rest)

/-- grpcClient.js:176-265, `performanceTest` with `useStreaming = false`.
`f i` is the outcome of the i-th dispatched `processData` call: its
resolved `clientDuration` or its rejection message (processData rejects on
any gRPC error, grpcClient.js:79-81).  `totalDuration` is the wall-clock
`endTime - startTime`.  Line 234 `if (result.clientDuration)` is a JS
truthiness test, so a latency of exactly 0 is not collected.  Line 247
divides by `successfulRequests` with no zero guard. -/
def grpcPerformanceTest (f : Nat → Except String ℚ) (N W : Nat) (totalDuration : ℚ) :
    Except String PerfResult :=
  match runBatches f (batchIndices N W) with
  | .error e => .error e
  | .ok lats =>
      let clientLatencies := lats.filter (fun q => q ≠ 0)
      let s := clientLatencies.length
      .ok { protocol := "grpc"
            totalRequests := N
            successfulRequests := s
            totalDuration := totalDuration
            averageLatency :=
              jsDiv (.num (clientLatencies.foldl (fun a q => a + q) 0)) (.num s)
            throughput := jsMul (jsDiv (.num s) (.num totalDuration)) (.num 1000) }

/-- httpClient.js:96-146, `performanceTest`.  Identical batch structure; every
fulfilled result is collected (no truthiness filter), and line 126 guards
the empty case: `results.length ? sum / results.length : 0`. -/
def httpPerformanceTest (f : Nat → Except String ℚ) (N W : Nat) (totalDuration : ℚ) :
    Except String PerfResult :=
  match runBatches f (batchIndices N W) with
  | .error e => .error e
  | .ok lats =>
      let n := lats.length
      .ok { protocol := "http"
            totalRequests := N
            successfulRequests := n
            totalDuration := totalDuration
            averageLatency :=
              if n = 0 then .num 0 else .num ((lats.foldl (fun a q => a + q) 0) / n)
            throughput := jsMul (jsDiv (.num n) (.num totalDuration)) (.num 1000) }

/-- grpcClient.js:190-217, the `useStreaming = true` branch of
`performanceTest`.  `batchSize = Math.ceil(numRequests / concurrency)`; the
loop opens one stream per `batchSize` step (each carrying a full
`batchSize` requests).  `g b` is the outcome of stream `b`: its total
`clientDuration` and the number of responses received, or the stream error.
Slicing streams into groups of at most 10 concurrent streams (lines
201-209) only schedules the same `Promise.all` results and is
value-irrelevant.  Each stream contributes its uniform per-request latency
`clientDuration / responses` repeated `responses` times (lines 211-217). -/
def grpcPerformanceTestStream (g : Nat → Except String (ℚ × Nat)) (N W : Nat)
    (totalDuration : ℚ) : Except String PerfResult :=
  let bs := if W = 0 then 0 else (N + W - 1) / W
  let count := if bs = 0 then 0 else (N + bs - 1) / bs
  match promiseAll g (List.range count) with
  | .error e => .error e
  | .ok streams =>
      let clientLatencies :=
        streams.foldl (fun acc r => acc ++ List.replicate r.2 (r.1 / (r.2 : ℚ))) []
      let s := clientLatencies.length
      .ok { protocol := "grpc-stream"
            totalRequests := N
            successfulRequests := s
            totalDuration := totalDuration
            averageLatency :=
              jsDiv (.num (clientLatencies.foldl (fun a q => a + q) 0)) (.num s)
            throughput := jsMul (jsDiv (.num s) (.num totalDuration)) (.num 1000) }

/-- The per-protocol try/catch of `runPerformanceComparison`
(orchestratorService.js:63-76, 92-105): a fulfilled driver summary is spread
into the entry, a rejection becomes the catch-branch error literal. -/
def mkProtoEntry (proto : String) (numRequests : Nat) :
    Except String PerfResult → ProtoEntry
  | .ok r => successEntry r
  | .error msg => errorEntry proto msg numRequests

/-- The orchestrator's `TestRecord` as observable through the registry:
status, whether `endTime` was assigned, the stored per-protocol summaries
keyed by the entry's `protocol` field, the comparison, and the top-level
`error` field. -/
structure TestRecord where
  status : String
  endTimeSet : Bool
  results : List (String × StoredResult)
  comparison : Option ComparisonMetrics
  error : Option String
deriving DecidableEq, Repr

/-- orchestratorService.js:24-141, `runPerformanceComparison`, for a
configuration with the given `numRequests` and `protocols` array.  The two
driver runs are passed as their settled outcomes ('grpc' first, then
'http', mirroring the fixed sequential order).  Every per-protocol failure
is caught inside the loop, so the surrounding try never throws and the
record always leaves the running state as 'completed' with `endTime` set
and no top-level error. -/
def runPerformanceComparison (grpcOutcome httpOutcome : Except String PerfResult)
    (numRequests : Nat) (protocols : List String) : TestRecord :=
  let results :=
    (if protocols.contains "grpc" then [mkProtoEntry "grpc" numRequests grpcOutcome] else [])
    ++ (if protocols.contains "http" then [mkProtoEntry "http" numRequests httpOutcome] else [])
  { status := "completed"
    endTimeSet := true
    results := results.map (fun e => (e.protocol, storeResult e))
    comparison := some (calculateComparisonMetrics results)
    error := none }

/-- Events observable while a non-streaming `performanceTest` executes:
`dispatch i` marks the synchronous start of the i-th `processData` call
(the network request is initiated inside the synchronous part of
`processData`), `batchSettled b` marks `await` of batch b's `Promise.all`
returning. -/
inductive Ev where
  | dispatch (i : Nat)
  | batchSettled (b : Nat)
deriving DecidableEq, Repr

/-- The event order of grpcClient.js:219-241 / httpClient.js:109-122.  The
first loop runs synchronously: `batchRequests.map(request =>
this.processData(request))` invokes `processData` immediately for every
request of every batch, so every dispatch happens before the second loop
awaits any batch; the awaits then settle the batches in order. -/
def perfTestTrace (N W : Nat) : List Ev :=
  ((batchIndices N W).flatten.map Ev.dispatch)
    ++ ((List.range (batchIndices N W).length).map Ev.batchSettled)

/-- DataProcessingService.java:24-25: `app.performance.max-response-size`
configuration default, 100MB. -/
def maxResponseSize : Nat := 104857600

/-- DataProcessingService.java:123-140, `generatePayload`: clamps the
requested size to `maxResponseSize`, then fills byte i with `i % 256`,
except that every offset divisible by 1000 takes a byte from the service's
`SecureRandom` stream, embedded as the oracle `rand`. -/
def generatePayload (rand : Nat → Fin 256) (size : Nat) : List Nat :=
  (List.range (min size maxResponseSize)).map
    (fun i => if i % 1000 = 0 then (rand i : Nat) else i % 256)

/-- orchestratorService.js:292-299, the client-side binary sample payload of
`generateSampleData`: every byte is `i % 256`, with no random replacement
and no size clamp. -/
def generateSampleDataPayload (size : Nat) : List Nat :=
  (List.range size).map (fun i => i % 256)

/-- A transient results-array entry whose throughput and latency are finite
numbers, as produced by a successful driver run; used to state comparison
properties over concrete metric values (protocol, throughput, latency). -/
def finiteEntry (p : String × ℚ × ℚ) : ProtoEntry :=
  { protocol := p.1
    totalRequests := 0
    successfulRequests := 0
    failedRequests := none
    averageLatency := some (.num p.2.2)
    throughput := some (.num p.2.1)
    totalDuration := none
    error := none }

/-- `q / 0` under JS semantics: the sentinel-free value the comparison code
produces from a zero baseline. -/
def jsZeroRatio (q : ℚ) : JsNum :=
  if q = 0 then .nan else if 0 < q then .inf else .ninf

instance {ε α : Type} [DecidableEq ε] [DecidableEq α] : DecidableEq (Except ε α) :=
  fun a b =>
    match a, b with
    | .error e, .error e' =>
        if h : e = e' then isTrue (by rw [h]) else isFalse (by simp [h])
    | .ok x, .ok y =>
        if h : x = y then isTrue (by rw [h]) else isFalse (by simp [h])
    | .error _, .ok _ => isFalse (fun hc => Except.noConfusion hc)
    | .ok _, .error _ => isFalse (fun hc => Except.noConfusion hc)

/-- A concrete fulfilled HTTP driver summary, used as the second protocol in
concrete orchestrator runs. -/
def httpOkFixture : PerfResult :=
  { protocol := "http"
    totalRequests := 5
    successfulRequests := 5
    totalDuration := 1000
    averageLatency := .num 10
    throughput := .num 5 }

/-- C1: the claim says each batch is dispatched in parallel and awaited to
completion before the next batch starts, bounding in-flight requests by W.
In the code both loops of `performanceTest` first build every batch, calling
`processData` for every request of every batch synchronously, and only then
await the batches: with numRequests = 2, concurrency = 1, request 1 (the
sole member of batch 1) is dispatched before batch 0 settles, so the second
batch starts while the first is still in flight.  The batch partition
itself does follow min(W, remaining). -/
theorem c1_dispatch_precedes_batch_settlement :
    perfTestTrace 2 1 = [.dispatch 0, .dispatch 1, .batchSettled 0, .batchSettled 1] ∧
    (perfTestTrace 2 1).indexOf (.dispatch 1) < (perfTestTrace 2 1).indexOf (.batchSettled 0) ∧
    (batchIndices 2 1).map List.length = [1, 1] := by
  decide

/-- C2 counterexample: with two requests at concurrency 1 whose first
request fails, the gRPC driver's run returns the rejection itself — the
failure is not recorded as a failed outcome and the run does not continue
to completion. -/
theorem c2_run_rejects_on_request_failure :
    grpcPerformanceTest (fun j => if j = 0 then .error "boom" else .ok 5) 2 1 7
      = .error "boom" := by
  decide

/-- C3: when the gRPC run fails and the HTTP run succeeds, the record does
complete with `endTime` set, the HTTP summary stored and a comparison
computed, and the grpc entry carries totalRequests 0 / failedRequests 5 —
but the stored grpc entry's `error` field is absent (`none`), although the
claim (and the repository's own unit test) expects the error message to be
set on `results.grpc`. -/
theorem c3_stored_error_entry_loses_message :
    (runPerformanceComparison (.error "gRPC test failed") (.ok httpOkFixture)
        5 ["grpc", "http"]).status = "completed" ∧
    (runPerformanceComparison (.error "gRPC test failed") (.ok httpOkFixture)
        5 ["grpc", "http"]).endTimeSet = true ∧
    (runPerformanceComparison (.error "gRPC test failed") (.ok httpOkFixture)
        5 ["grpc", "http"]).results.lookup "grpc" =
      some { protocol := "grpc", totalRequests := 0, successfulRequests := 0,
             failedRequests := some 5, averageLatency := none, throughput := none,
             totalDuration := none, error := none } ∧
    (runPerformanceComparison (.error "gRPC test failed") (.ok httpOkFixture)
        5 ["grpc", "http"]).results.lookup "http" =
      some (storeResult (successEntry httpOkFixture)) ∧
    (runPerformanceComparison (.error "gRPC test failed") (.ok httpOkFixture)
        5 ["grpc", "http"]).comparison.isSome = true := by
  decide

/-- C6: outcome-count conservation fails on both paths.  On the error path
(config numRequests = 5) the stored entry has successfulRequests +
failedRequests = 0 + 5 = 5 while totalRequests = 0; on the success path
(five requests, all succeeding with latency 5ms) the drivers never set
`failedRequests` at all, so the stored field is absent. -/
theorem c6_count_conservation_fails :
    ((runPerformanceComparison (.error "unreachable") (.ok httpOkFixture)
        5 ["grpc", "http"]).results.lookup "grpc").map
        (fun s => (s.totalRequests, s.successfulRequests, s.failedRequests))
      = some (0, 0, some 5) ∧
    ((runPerformanceComparison (grpcPerformanceTest (fun _ => .ok 5) 5 2 100)
        (.ok httpOkFixture) 5 ["grpc", "http"]).results.lookup "grpc").map
        (fun s => s.failedRequests)
      = some none := by
  decide

/-- C7: with zero collected latencies (numRequests = 0) the gRPC driver
computes averageLatency as 0/0, i.e. NaN, while the HTTP driver's guard
yields exactly 0 as the claim requires. -/
theorem c7_grpc_average_latency_nan_on_empty :
    (grpcPerformanceTest (fun _ => .ok 1) 0 10 50).toOption.map
        (fun r => r.averageLatency) = some .nan ∧
    (httpPerformanceTest (fun _ => .ok 1) 0 10 50).toOption.map
        (fun r => r.averageLatency) = some (.num 0) := by
  decide

/-- C4 counterexample: with baseline (grpc) throughput 3 and http throughput
1, the http improvement percentage the code emits is the `.toFixed(2)`
value -66.67, not the claim's exact formula value (1-3)/3*100 = -200/3. -/
theorem c4_improvement_is_rounded :
    ((calculateComparisonMetrics
        [finiteEntry ("grpc", 3, 1), finiteEntry ("http", 1, 1)]).throughputComparison.lookup
        "http").map (fun e => e.improvement) = some (.num (-6667 / 100)) ∧
    JsNum.num (-6667 / 100) ≠ JsNum.num ((1 - 3) / 3 * 100) := by
  have hr : round ((1 - 3) / 3 * 100 * 100 : ℚ) = -6667 := by
    rw [show ((1 : ℚ) - 3) / 3 * 100 * 100 = -20000 / 3 by norm_num, round_eq,
      Int.floor_eq_iff]
    constructor <;> norm_num
  constructor
  · simp [calculateComparisonMetrics, finiteEntry, mkThroughputEntry, List.lookup,
      jsDiv, jsSub, jsMul, jsVal, jsToFixed2, baselineOf, List.find?, hr]
  · simp only [ne_eq, JsNum.num.injEq]
    norm_num

/-- C5 counterexample: with a baseline whose throughput and average latency
are exactly 0, the emitted ratio and improvement are NaN — NaN does appear
in the ComparisonMetrics output and no sentinel is produced. -/
theorem c5_nan_reaches_output :
    ((calculateComparisonMetrics [finiteEntry ("grpc", 0, 0)]).throughputComparison.lookup
        "grpc").map (fun e => (e.ratio, e.improvement)) = some (.nan, .nan) ∧
    ((calculateComparisonMetrics [finiteEntry ("grpc", 0, 0)]).latencyComparison.lookup
        "grpc").map (fun e => e.ratio) = some .nan := by
  constructor <;>
    simp [calculateComparisonMetrics, finiteEntry, mkThroughputEntry, mkLatencyEntry,
      List.lookup, jsDiv, jsSub, jsMul, jsVal, jsToFixed2, List.find?]

/-- C8 counterexample: two protocols with equal throughput 5 and equal
latency 2.  The summary names "http", the LAST of the tied protocols in
iteration order, not the first-encountered "grpc". -/
theorem c8_tie_goes_to_last :
    (calculateComparisonMetrics
        [finiteEntry ("grpc", 5, 2), finiteEntry ("http", 5, 2)]).summary.fastestProtocol
      = some "http" ∧
    (calculateComparisonMetrics
        [finiteEntry ("grpc", 5, 2), finiteEntry ("http", 5, 2)]).summary.lowestLatencyProtocol
      = some "http" ∧
    (some "http" : Option String) ≠ some "grpc" := by
  decide

/-- C9 counterexample: one byte above the 100MB `max-response-size` default,
the server-side generated payload is clamped to 104857600 bytes, not the
requested 104857601.  (The client-side binary sample generator, the claim's
other cited source, deterministically puts the pattern byte 1000 % 256 =
232 at offset 1000 on every call — it never substitutes a random byte.) -/
theorem c9_payload_clamped_at_max :
    (generatePayload (fun _ => 0) 104857601).length = 104857600 ∧
    (104857600 : Nat) ≠ 104857601 ∧
    (generateSampleDataPayload 2001).get
        ⟨1000, by simp only [generateSampleDataPayload, List.length_map,
          List.length_range]; omega⟩ = 232 := by
  refine ⟨?_, by decide, ?_⟩
  · simp only [generatePayload, List.length_map, List.length_range, maxResponseSize]
    omega
  · simp [generateSampleDataPayload]

lemma mem_throughputComparison {results : List ProtoEntry} {b r : ProtoEntry}
    (hb : baselineOf results = some b) (hr : r ∈ results) :
    (r.protocol, mkThroughputEntry r b)
      ∈ (calculateComparisonMetrics results).throughputComparison := by
  cases results with
  | nil => simp [baselineOf] at hb
  | cons r0 rest =>
      simp only [baselineOf, Option.some.injEq] at hb
      simp only [calculateComparisonMetrics]
      rw [hb]
      exact List.mem_map_of_mem _ hr

lemma mem_latencyComparison {results : List ProtoEntry} {b r : ProtoEntry}
    (hb : baselineOf results = some b) (hr : r ∈ results) :
    (r.protocol, mkLatencyEntry r b)
      ∈ (calculateComparisonMetrics results).latencyComparison := by
  cases results with
  | nil => simp [baselineOf] at hb
  | cons r0 rest =>
      simp only [baselineOf, Option.some.injEq] at hb
      simp only [calculateComparisonMetrics]
      rw [hb]
      exact List.mem_map_of_mem _ hr

lemma baselineOf_spec {results : List ProtoEntry} {b : ProtoEntry}
    (hb : baselineOf results = some b) :
    b ∈ results ∧
    ((∃ g ∈ results, g.protocol = "grpc") → b.protocol = "grpc") ∧
    ((∀ g ∈ results, g.protocol ≠ "grpc") → results.head? = some b) := by
  cases results with
  | nil => simp [baselineOf] at hb
  | cons r0 rest =>
      simp only [baselineOf, Option.some.injEq] at hb
      cases hfind : (r0 :: rest).find? (fun r => r.protocol == "grpc") with
      | none =>
          rw [hfind, Option.getD_none] at hb
          subst hb
          refine ⟨List.mem_cons_self _ _, ?_, fun _ => rfl⟩
          rintro ⟨g, hg, hgp⟩
          have hng := List.find?_eq_none.mp hfind g hg
          simp [hgp] at hng
      | some g =>
          rw [hfind, Option.getD_some] at hb
          subst hb
          have hmem := List.mem_of_find?_eq_some hfind
          have hprop := List.find?_some hfind
          simp only [beq_iff_eq] at hprop
          exact ⟨hmem, fun _ => hprop, fun hall => absurd hprop (hall _ hmem)⟩

/-- C4 (amended): the Comparison Engine selects the first 'grpc' result as
baseline when present, else the first result, and for every protocol emits
the claimed throughput/latency ratios; the improvement percentages are the
claimed formulas passed through `.toFixed(2)`, i.e. rounded to two decimal
places, rather than the exact values. -/
theorem c4_comparison_formulas (results : List ProtoEntry) (b r : ProtoEntry)
    (hb : baselineOf results = some b) (hr : r ∈ results) :
    ((∃ g ∈ results, g.protocol = "grpc") → b.protocol = "grpc") ∧
    ((∀ g ∈ results, g.protocol ≠ "grpc") → results.head? = some b) ∧
    (r.protocol,
      ({ value := r.throughput
         relativeTo := b.protocol
         ratio := jsDiv (jsVal r.throughput) (jsVal b.throughput)
         improvement := jsToFixed2 (jsMul (jsDiv
           (jsSub (jsVal r.throughput) (jsVal b.throughput))
           (jsVal b.throughput)) (.num 100)) } : CompEntry))
      ∈ (calculateComparisonMetrics results).throughputComparison ∧
    (r.protocol,
      ({ value := r.averageLatency
         relativeTo := b.protocol
         ratio := jsDiv (jsVal r.averageLatency) (jsVal b.averageLatency)
         improvement := jsToFixed2 (jsMul (jsDiv
           (jsSub (jsVal b.averageLatency) (jsVal r.averageLatency))
           (jsVal b.averageLatency)) (.num 100)) } : CompEntry))
      ∈ (calculateComparisonMetrics results).latencyComparison := by
  obtain ⟨_, hgrpc, hfirst⟩ := baselineOf_spec hb
  exact ⟨hgrpc, hfirst, mem_throughputComparison hb hr, mem_latencyComparison hb hr⟩

/-- Witness for C4's theorem at a concrete two-protocol result set. -/
theorem c4_comparison_formulas_witness :
    baselineOf [finiteEntry ("grpc", 3, 1), finiteEntry ("http", 1, 1)]
        = some (finiteEntry ("grpc", 3, 1)) ∧
    finiteEntry ("http", 1, 1)
        ∈ [finiteEntry ("grpc", 3, 1), finiteEntry ("http", 1, 1)] ∧
    ("http",
      ({ value := (finiteEntry ("http", 1, 1)).throughput
         relativeTo := (finiteEntry ("grpc", 3, 1)).protocol
         ratio := jsDiv (jsVal (finiteEntry ("http", 1, 1)).throughput)
           (jsVal (finiteEntry ("grpc", 3, 1)).throughput)
         improvement := jsToFixed2 (jsMul (jsDiv
           (jsSub (jsVal (finiteEntry ("http", 1, 1)).throughput)
             (jsVal (finiteEntry ("grpc", 3, 1)).throughput))
           (jsVal (finiteEntry ("grpc", 3, 1)).throughput)) (.num 100)) } : CompEntry))
      ∈ (calculateComparisonMetrics
          [finiteEntry ("grpc", 3, 1), finiteEntry ("http", 1, 1)]).throughputComparison :=
  ⟨by decide, by decide,
    (c4_comparison_formulas [finiteEntry ("grpc", 3, 1), finiteEntry ("http", 1, 1)]
      (finiteEntry ("grpc", 3, 1)) (finiteEntry ("http", 1, 1))
      (by decide) (by decide)).2.2.1⟩

lemma jsDiv_num_zero (q : ℚ) : jsDiv (.num q) (.num 0) = jsZeroRatio q := by
  simp [jsDiv, jsZeroRatio]

lemma jsMul_zeroRatio_hundred (q : ℚ) :
    jsMul (jsZeroRatio q) (.num 100) = jsZeroRatio q := by
  by_cases h0 : q = 0
  · simp [jsZeroRatio, h0, jsMul]
  · by_cases h1 : 0 < q
    · norm_num [jsZeroRatio, h0, h1, jsMul]
    · norm_num [jsZeroRatio, h0, h1, jsMul]

lemma jsToFixed2_zeroRatio (q : ℚ) : jsToFixed2 (jsZeroRatio q) = jsZeroRatio q := by
  by_cases h0 : q = 0
  · simp [jsZeroRatio, h0, jsToFixed2]
  · by_cases h1 : 0 < q
    · simp [jsZeroRatio, h0, h1, jsToFixed2]
    · simp [jsZeroRatio, h0, h1, jsToFixed2]

/-- C5 (amended): the comparison engine has no zero-guard.  When the
baseline's throughput (resp. average latency) is exactly 0 and the compared
value is the finite q, the emitted ratio is `q / 0` under JS semantics —
NaN for q = 0, ±Infinity otherwise — and the improvement field is the same
kind of non-finite value; no sentinel replaces them. -/
theorem c5_zero_baseline_emits_nonfinite (results : List ProtoEntry) (b r : ProtoEntry)
    (hb : baselineOf results = some b) (hr : r ∈ results) :
    (∀ q : ℚ, b.throughput = some (.num 0) → r.throughput = some (.num q) →
      (r.protocol,
        ({ value := some (.num q), relativeTo := b.protocol,
           ratio := jsZeroRatio q, improvement := jsZeroRatio q } : CompEntry))
        ∈ (calculateComparisonMetrics results).throughputComparison) ∧
    (∀ q : ℚ, b.averageLatency = some (.num 0) → r.averageLatency = some (.num q) →
      (r.protocol,
        ({ value := some (.num q), relativeTo := b.protocol,
           ratio := jsZeroRatio q, improvement := jsZeroRatio (-q) } : CompEntry))
        ∈ (calculateComparisonMetrics results).latencyComparison) := by
  constructor
  · intro q hbt hrt
    have h := mem_throughputComparison hb hr
    have he : mkThroughputEntry r b =
        { value := some (.num q), relativeTo := b.protocol,
          ratio := jsZeroRatio q, improvement := jsZeroRatio q } := by
      simp [mkThroughputEntry, hbt, hrt, jsVal, jsSub, sub_zero, jsDiv_num_zero,
        jsMul_zeroRatio_hundred, jsToFixed2_zeroRatio]
    rwa [he] at h
  · intro q hbt hrt
    have h := mem_latencyComparison hb hr
    have he : mkLatencyEntry r b =
        { value := some (.num q), relativeTo := b.protocol,
          ratio := jsZeroRatio q, improvement := jsZeroRatio (-q) } := by
      simp [mkLatencyEntry, hbt, hrt, jsVal, jsSub, zero_sub, jsDiv_num_zero,
        jsMul_zeroRatio_hundred, jsToFixed2_zeroRatio]
    rwa [he] at h

/-- Witness for C5's theorem: baseline throughput and latency 0, compared
protocol with throughput 2 and latency 3. -/
theorem c5_zero_baseline_witness :
    baselineOf [finiteEntry ("grpc", 0, 0), finiteEntry ("http", 2, 3)]
        = some (finiteEntry ("grpc", 0, 0)) ∧
    finiteEntry ("http", 2, 3)
        ∈ [finiteEntry ("grpc", 0, 0), finiteEntry ("http", 2, 3)] ∧
    ("http",
      ({ value := some (.num 2), relativeTo := "grpc",
         ratio := jsZeroRatio 2, improvement := jsZeroRatio 2 } : CompEntry))
      ∈ (calculateComparisonMetrics
          [finiteEntry ("grpc", 0, 0), finiteEntry ("http", 2, 3)]).throughputComparison :=
  ⟨by decide, by decide,
    (c5_zero_baseline_emits_nonfinite
      [finiteEntry ("grpc", 0, 0), finiteEntry ("http", 2, 3)]
      (finiteEntry ("grpc", 0, 0)) (finiteEntry ("http", 2, 3))
      (by decide) (by decide)).1 2 rfl rfl⟩

lemma foldl_last_argmax {α : Type} (f : α → ℚ) (a : α) (l : List α) :
    ∃ l1 l2, a :: l = l1 ++ (l.foldl (fun p c => if f c < f p then p else c) a) :: l2
      ∧ (∀ x ∈ a :: l, f x ≤ f (l.foldl (fun p c => if f c < f p then p else c) a))
      ∧ ∀ x ∈ l2, f x < f (l.foldl (fun p c => if f c < f p then p else c) a) := by
  induction l generalizing a with
  | nil =>
      refine ⟨[], [], rfl, ?_, by simp⟩
      intro x hx
      rw [List.mem_singleton] at hx
      subst hx
      exact le_refl _
  | cons c l ih =>
      simp only [List.foldl_cons]
      by_cases h : f c < f a
      · rw [if_pos h]
        obtain ⟨l1, l2, hdec, hmax, hlast⟩ := ih a
        cases l1 with
        | nil =>
            simp only [List.nil_append] at hdec
            injection hdec with ham hl
            subst hl
            refine ⟨[], c :: l, ?_, ?_, ?_⟩
            · simp [← ham]
            · intro x hx
              rcases List.mem_cons.mp hx with rfl | hx'
              · rw [← ham]
              · rcases List.mem_cons.mp hx' with rfl | hx''
                · exact le_of_lt (ham ▸ h)
                · exact hmax x (List.mem_cons_of_mem _ hx'')
            · intro x hx
              rcases List.mem_cons.mp hx with rfl | hx'
              · exact ham ▸ h
              · exact hlast x hx'
        | cons a1 t =>
            simp only [List.cons_append] at hdec
            injection hdec with ha1 hl
            refine ⟨a :: c :: t, l2, ?_, ?_, hlast⟩
            · simp only [List.cons_append]
              rw [← hl]
            · intro x hx
              rcases List.mem_cons.mp hx with rfl | hx'
              · exact hmax x (List.mem_cons_self _ _)
              · rcases List.mem_cons.mp hx' with rfl | hx''
                · exact le_trans (le_of_lt h) (hmax a (List.mem_cons_self _ _))
                · exact hmax x (List.mem_cons_of_mem _ hx'')
      · rw [if_neg h]
        obtain ⟨l1, l2, hdec, hmax, hlast⟩ := ih c
        refine ⟨a :: l1, l2, ?_, ?_, hlast⟩
        · rw [List.cons_append, ← hdec]
        · intro x hx
          rcases List.mem_cons.mp hx with rfl | hx'
          · exact le_trans (not_lt.mp h) (hmax c (List.mem_cons_self _ _))
          · exact hmax x hx'

lemma foldl_last_argmin {α : Type} (f : α → ℚ) (a : α) (l : List α) :
    ∃ l1 l2, a :: l = l1 ++ (l.foldl (fun p c => if f p < f c then p else c) a) :: l2
      ∧ (∀ x ∈ a :: l, f (l.foldl (fun p c => if f p < f c then p else c) a) ≤ f x)
      ∧ ∀ x ∈ l2, f (l.foldl (fun p c => if f p < f c then p else c) a) < f x := by
  induction l generalizing a with
  | nil =>
      refine ⟨[], [], rfl, ?_, by simp⟩
      intro x hx
      rw [List.mem_singleton] at hx
      subst hx
      exact le_refl _
  | cons c l ih =>
      simp only [List.foldl_cons]
      by_cases h : f a < f c
      · rw [if_pos h]
        obtain ⟨l1, l2, hdec, hmin, hlast⟩ := ih a
        cases l1 with
        | nil =>
            simp only [List.nil_append] at hdec
            injection hdec with ham hl
            subst hl
            refine ⟨[], c :: l, ?_, ?_, ?_⟩
            · simp [← ham]
            · intro x hx
              rcases List.mem_cons.mp hx with rfl | hx'
              · rw [← ham]
              · rcases List.mem_cons.mp hx' with rfl | hx''
                · exact le_of_lt (ham ▸ h)
                · exact hmin x (List.mem_cons_of_mem _ hx'')
            · intro x hx
              rcases List.mem_cons.mp hx with rfl | hx'
              · exact ham ▸ h
              · exact hlast x hx'
        | cons a1 t =>
            simp only [List.cons_append] at hdec
            injection hdec with ha1 hl
            refine ⟨a :: c :: t, l2, ?_, ?_, hlast⟩
            · simp only [List.cons_append]
              rw [← hl]
            · intro x hx
              rcases List.mem_cons.mp hx with rfl | hx'
              · exact hmin x (List.mem_cons_self _ _)
              · rcases List.mem_cons.mp hx' with rfl | hx''
                · exact le_trans (hmin a (List.mem_cons_self _ _)) (le_of_lt h)
                · exact hmin x (List.mem_cons_of_mem _ hx'')
      · rw [if_neg h]
        obtain ⟨l1, l2, hdec, hmin, hlast⟩ := ih c
        refine ⟨a :: l1, l2, ?_, ?_, hlast⟩
        · rw [List.cons_append, ← hdec]
        · intro x hx
          rcases List.mem_cons.mp hx with rfl | hx'
          · exact le_trans (hmin c (List.mem_cons_self _ _)) (not_lt.mp h)
          · exact hmin x hx'

lemma foldl_fastest_map (a : String × ℚ × ℚ) (l : List (String × ℚ × ℚ)) :
    (l.map finiteEntry).foldl
        (fun prev cur => if jsGtO prev.throughput cur.throughput then prev else cur)
        (finiteEntry a)
      = finiteEntry (l.foldl (fun p c => if c.2.1 < p.2.1 then p else c) a) := by
  induction l generalizing a with
  | nil => rfl
  | cons c l ih =>
      simp only [List.map_cons, List.foldl_cons]
      have hcond : (jsGtO (finiteEntry a).throughput (finiteEntry c).throughput = true)
          ↔ (c.2.1 < a.2.1) := by
        simp [finiteEntry, jsGtO, jsVal, jsCmpGt]
      by_cases h : c.2.1 < a.2.1
      · rw [if_pos (hcond.mpr h), if_pos h]
        exact ih a
      · rw [if_neg (fun hh => h (hcond.mp hh)), if_neg h]
        exact ih c

lemma foldl_lowest_map (a : String × ℚ × ℚ) (l : List (String × ℚ × ℚ)) :
    (l.map finiteEntry).foldl
        (fun prev cur => if jsLtO prev.averageLatency cur.averageLatency then prev else cur)
        (finiteEntry a)
      = finiteEntry (l.foldl (fun p c => if p.2.2 < c.2.2 then p else c) a) := by
  induction l generalizing a with
  | nil => rfl
  | cons c l ih =>
      simp only [List.map_cons, List.foldl_cons]
      have hcond : (jsLtO (finiteEntry a).averageLatency (finiteEntry c).averageLatency = true)
          ↔ (a.2.2 < c.2.2) := by
        simp [finiteEntry, jsLtO, jsVal, jsCmpGt]
      by_cases h : a.2.2 < c.2.2
      · rw [if_pos (hcond.mpr h), if_pos h]
        exact ih a
      · rw [if_neg (fun hh => h (hcond.mp hh)), if_neg h]
        exact ih c

/-- C8 (amended): over any nonempty result set with finite throughputs and
latencies, `summary.fastestProtocol` (resp. `lowestLatencyProtocol`) is the
LAST-encountered protocol attaining the maximum throughput (resp. minimum
latency) in stable iteration order — on exact ties the later protocol wins,
not the first-encountered — while `maxThroughput` / `minLatency` are the
true arg-max throughput and arg-min latency values. -/
theorem c8_summary_last_of_ties (a : String × ℚ × ℚ) (l : List (String × ℚ × ℚ)) :
    ∃ pmax l1 l2 pmin m1 m2,
      (calculateComparisonMetrics ((a :: l).map finiteEntry)).summary.fastestProtocol
          = some pmax.1
      ∧ (calculateComparisonMetrics ((a :: l).map finiteEntry)).summary.maxThroughput
          = some (.num pmax.2.1)
      ∧ a :: l = l1 ++ pmax :: l2
      ∧ (∀ x ∈ a :: l, x.2.1 ≤ pmax.2.1)
      ∧ (∀ x ∈ l2, x.2.1 < pmax.2.1)
      ∧ (calculateComparisonMetrics ((a :: l).map finiteEntry)).summary.lowestLatencyProtocol
          = some pmin.1
      ∧ (calculateComparisonMetrics ((a :: l).map finiteEntry)).summary.minLatency
          = some (.num pmin.2.2)
      ∧ a :: l = m1 ++ pmin :: m2
      ∧ (∀ x ∈ a :: l, pmin.2.2 ≤ x.2.2)
      ∧ (∀ x ∈ m2, pmin.2.2 < x.2.2) := by
  obtain ⟨l1, l2, hdec, hmax, hlast⟩ := foldl_last_argmax (fun x => x.2.1) a l
  obtain ⟨m1, m2, hdec', hmin, hlast'⟩ := foldl_last_argmin (fun x => x.2.2) a l
  refine ⟨l.foldl (fun p c => if c.2.1 < p.2.1 then p else c) a, l1, l2,
    l.foldl (fun p c => if p.2.2 < c.2.2 then p else c) a, m1, m2,
    ?_, ?_, ?_, ?_, ?_, ?_, ?_, ?_, ?_, ?_⟩
  · rw [List.map_cons,
      show (calculateComparisonMetrics (finiteEntry a :: l.map finiteEntry)).summary.fastestProtocol
        = some (((l.map finiteEntry).foldl
            (fun prev cur => if jsGtO prev.throughput cur.throughput then prev else cur)
            (finiteEntry a)).protocol) from rfl,
      foldl_fastest_map]
    rfl
  · rw [List.map_cons,
      show (calculateComparisonMetrics (finiteEntry a :: l.map finiteEntry)).summary.maxThroughput
        = ((l.map finiteEntry).foldl
            (fun prev cur => if jsGtO prev.throughput cur.throughput then prev else cur)
            (finiteEntry a)).throughput from rfl,
      foldl_fastest_map]
    rfl
  · exact hdec
  · exact hmax
  · exact hlast
  · rw [List.map_cons,
      show (calculateComparisonMetrics
            (finiteEntry a :: l.map finiteEntry)).summary.lowestLatencyProtocol
        = some (((l.map finiteEntry).foldl
            (fun prev cur => if jsLtO prev.averageLatency cur.averageLatency then prev else cur)
            (finiteEntry a)).protocol) from rfl,
      foldl_lowest_map]
    rfl
  · rw [List.map_cons,
      show (calculateComparisonMetrics (finiteEntry a :: l.map finiteEntry)).summary.minLatency
        = ((l.map finiteEntry).foldl
            (fun prev cur => if jsLtO prev.averageLatency cur.averageLatency then prev else cur)
            (finiteEntry a)).averageLatency from rfl,
      foldl_lowest_map]
    rfl
  · exact hdec'
  · exact hmin
  · exact hlast'

lemma promiseAll_error {α : Type} {f : Nat → Except String α} {b : List Nat} {i : Nat}
    {msg : String} (hi : i ∈ b) (hf : f i = .error msg) :
    ∃ e, promiseAll f b = .error e := by
  induction b with
  | nil => cases hi
  | cons j b ih =>
      rcases List.mem_cons.mp hi with rfl | hi'
      · exact ⟨msg, by simp [promiseAll, hf]⟩
      · cases hj : f j with
        | error e => exact ⟨e, by simp [promiseAll, hj]⟩
        | ok a =>
            obtain ⟨e, he⟩ := ih hi'
            exact ⟨e, by simp [promiseAll, hj, he]⟩

lemma runBatches_error {f : Nat → Except String ℚ} {bs : List (List Nat)} {i : Nat}
    {msg : String} (hi : i ∈ bs.flatten) (hf : f i = .error msg) :
    ∃ e, runBatches f bs = .error e := by
  induction bs with
  | nil => simp at hi
  | cons b bs ih =>
      rw [List.flatten_cons] at hi
      rcases List.mem_append.mp hi with hib | hibs
      · obtain ⟨e, he⟩ := promiseAll_error hib hf
        exact ⟨e, by simp [runBatches, he]⟩
      · cases hb : promiseAll f b with
        | error e => exact ⟨e, by simp [runBatches, hb]⟩
        | ok qs =>
            obtain ⟨e, he⟩ := ih hibs
            exact ⟨e, by simp [runBatches, hb, he]⟩

lemma mem_flatten_batchIndices {N W i : Nat} (hW : W ≠ 0) (hi : i < N) :
    i ∈ (batchIndices N W).flatten := by
  rw [List.mem_flatten]
  refine ⟨(List.range (min W (N - (i / W) * W))).map (fun j => (i / W) * W + j), ?_, ?_⟩
  · rw [batchIndices, if_neg hW]
    refine List.mem_map_of_mem _ ?_
    rw [List.mem_range]
    have h1 : i / W ≤ (N - 1) / W := Nat.div_le_div_right (by omega)
    have h2 : (N + W - 1) / W = (N - 1) / W + 1 := by
      have hnw : N + W - 1 = (N - 1) + W := by omega
      rw [hnw, Nat.add_div_right _ (Nat.pos_of_ne_zero hW)]
    omega
  · rw [List.mem_map]
    refine ⟨i % W, ?_, ?_⟩
    · rw [List.mem_range]
      have hmod : i % W < W := Nat.mod_lt _ (Nat.pos_of_ne_zero hW)
      have hdm : i / W * W + i % W = i := Nat.div_add_mod' i W
      omega
    · exact Nat.div_add_mod' i W

lemma grpcPerformanceTest_error {f : Nat → Except String ℚ} {N W : Nat} {d : ℚ} {i : Nat}
    {msg : String} (hW : W ≠ 0) (hi : i < N) (hf : f i = .error msg) :
    ∃ e, grpcPerformanceTest f N W d = .error e := by
  obtain ⟨e, he⟩ := runBatches_error (mem_flatten_batchIndices hW hi) hf
  exact ⟨e, by simp [grpcPerformanceTest, he]⟩

/-- C2 (amended): the drivers' `processData` rejects on a request failure
rather than returning a failure outcome, and because each batch is awaited
through `Promise.all`, one failing request makes the whole `performanceTest`
run reject — the run does not continue with the request counted as failed.
The orchestrator then catches the rejection and records the entire protocol
as an error entry with all `numRequests` counted failed (and the test as a
whole still completes). -/
theorem c2_request_failure_fails_whole_run
    (f : Nat → Except String ℚ) (ho : Except String PerfResult)
    (N W : Nat) (d : ℚ) (i : Nat) (msg : String)
    (hW : W ≠ 0) (hi : i < N) (hf : f i = .error msg) :
    ∃ e, grpcPerformanceTest f N W d = .error e ∧
      (runPerformanceComparison (grpcPerformanceTest f N W d) ho N
          ["grpc", "http"]).status = "completed" ∧
      (runPerformanceComparison (grpcPerformanceTest f N W d) ho N
          ["grpc", "http"]).results.lookup "grpc"
        = some (storeResult (errorEntry "grpc" e N)) := by
  obtain ⟨e, he⟩ := grpcPerformanceTest_error hW hi hf
  refine ⟨e, he, rfl, ?_⟩
  simp [runPerformanceComparison, he, mkProtoEntry, errorEntry, List.lookup]

/-- Witness for C2's theorem: a single request that always fails. -/
theorem c2_request_failure_witness :
    (1 : Nat) ≠ 0 ∧ (0 : Nat) < 1 ∧
    (∃ e, grpcPerformanceTest (fun _ => .error "boom") 1 1 0 = .error e ∧
      (runPerformanceComparison (grpcPerformanceTest (fun _ => .error "boom") 1 1 0)
          (.ok httpOkFixture) 1 ["grpc", "http"]).status = "completed" ∧
      (runPerformanceComparison (grpcPerformanceTest (fun _ => .error "boom") 1 1 0)
          (.ok httpOkFixture) 1 ["grpc", "http"]).results.lookup "grpc"
        = some (storeResult (errorEntry "grpc" e 1))) :=
  ⟨by decide, by decide,
    c2_request_failure_fails_whole_run (fun _ => .error "boom") (.ok httpOkFixture)
      1 1 0 0 "boom" (by decide) (by decide) rfl⟩

/-- C9 (amended): for every requested size, the server-side binary payload
generator returns exactly `min sizeBytes maxResponseSize` bytes (the size is
clamped at the configured 100MB maximum), in which byte i is `i mod 256`
except that every offset divisible by 1000 carries a byte drawn from the
SecureRandom stream. -/
theorem c9_payload_pattern (rand : Nat → Fin 256) (size i : Nat)
    (h : i < (generatePayload rand size).length) :
    (generatePayload rand size).length = min size maxResponseSize ∧
    (generatePayload rand size)[i] = if i % 1000 = 0 then (rand i : Nat) else i % 256 := by
  constructor
  · simp [generatePayload]
  · simp [generatePayload]

/-- Witness for C9's theorem at size 5, offset 0 (an offset divisible by
1000, hence a random byte). -/
theorem c9_payload_pattern_witness :
    (generatePayload (fun _ => 7) 5).length = min 5 maxResponseSize ∧
    (generatePayload (fun _ => 7) 5).get
        ⟨0, by simp only [generatePayload, List.length_map, List.length_range,
          maxResponseSize]; omega⟩
      = if 0 % 1000 = 0 then ((7 : Fin 256) : Nat) else 0 % 256 :=
  c9_payload_pattern (fun _ => 7) 5 0
    (by simp only [generatePayload, List.length_map, List.length_range,
      maxResponseSize]; omega)

lemma throughputComparison_relativeTo {results : List ProtoEntry} {b : ProtoEntry}
    (hb : baselineOf results = some b) :
    ∀ p ∈ (calculateComparisonMetrics results).throughputComparison,
      p.2.relativeTo = b.protocol := by
  cases results with
  | nil => intro p hp; simp [calculateComparisonMetrics] at hp
  | cons r0 rest =>
      simp only [baselineOf, Option.some.injEq] at hb
      intro p hp
      simp only [calculateComparisonMetrics] at hp
      rcases List.mem_map.mp hp with ⟨x, hx, rfl⟩
      simp [mkThroughputEntry, hb]

lemma mkProtoEntry_http_protocol (f : Nat → Except String ℚ) (N W : Nat) (d2 : ℚ) :
    (mkProtoEntry "http" N (httpPerformanceTest f N W d2)).protocol = "http" := by
  cases h : runBatches f (batchIndices N W) <;>
    simp [httpPerformanceTest, mkProtoEntry, successEntry, errorEntry, h]

/-- C10: with `useStreaming = true`, a fulfilled binary-RPC run carries
protocol 'grpc-stream'; since the orchestrator spreads the driver summary
after its own `protocol: 'grpc'` field, the TestRecord's results map is
keyed 'grpc-stream' (and has no 'grpc' key), and the comparison baseline
lookup for the literal 'grpc' finds nothing and falls back to the first
results entry — the streaming entry itself, so every comparison is relative
to 'grpc-stream'. -/
theorem c10_streaming_key_and_baseline_fallback
    (g : Nat → Except String (ℚ × Nat)) (f : Nat → Except String ℚ)
    (N W : Nat) (d d2 : ℚ) (r : PerfResult)
    (hr : grpcPerformanceTestStream g N W d = .ok r) :
    r.protocol = "grpc-stream" ∧
    (runPerformanceComparison (grpcPerformanceTestStream g N W d)
        (httpPerformanceTest f N W d2) N ["grpc", "http"]).results.lookup "grpc" = none ∧
    (runPerformanceComparison (grpcPerformanceTestStream g N W d)
        (httpPerformanceTest f N W d2) N ["grpc", "http"]).results.lookup "grpc-stream"
      = some (storeResult (successEntry r)) ∧
    baselineOf [mkProtoEntry "grpc" N (grpcPerformanceTestStream g N W d),
        mkProtoEntry "http" N (httpPerformanceTest f N W d2)]
      = some (successEntry r) ∧
    ∃ m, (runPerformanceComparison (grpcPerformanceTestStream g N W d)
        (httpPerformanceTest f N W d2) N ["grpc", "http"]).comparison = some m ∧
      ∀ p ∈ m.throughputComparison, p.2.relativeTo = "grpc-stream" := by
  have hproto : r.protocol = "grpc-stream" := by
    simp only [grpcPerformanceTestStream] at hr
    split at hr
    · simp at hr
    · rw [Except.ok.injEq] at hr
      rw [← hr]
  have hhttp := mkProtoEntry_http_protocol f N W d2
  have h1 : (successEntry r).protocol ≠ "grpc" := by simp [successEntry, hproto]
  have h2 : (mkProtoEntry "http" N (httpPerformanceTest f N W d2)).protocol ≠ "grpc" := by
    simp [hhttp]
  have hbase : baselineOf [mkProtoEntry "grpc" N (grpcPerformanceTestStream g N W d),
      mkProtoEntry "http" N (httpPerformanceTest f N W d2)] = some (successEntry r) := by
    rw [hr]
    show baselineOf (successEntry r :: [mkProtoEntry "http" N (httpPerformanceTest f N W d2)])
      = some (successEntry r)
    simp only [baselineOf, Option.some.injEq]
    rw [List.find?_cons_of_neg _ (by simp [h1]), List.find?_cons_of_neg _ (by simp [h2]),
      List.find?_nil, Option.getD_none]
  have hres : (runPerformanceComparison (grpcPerformanceTestStream g N W d)
      (httpPerformanceTest f N W d2) N ["grpc", "http"]).results
      = [((successEntry r).protocol, storeResult (successEntry r)),
         ((mkProtoEntry "http" N (httpPerformanceTest f N W d2)).protocol,
          storeResult (mkProtoEntry "http" N (httpPerformanceTest f N W d2)))] := by
    rw [hr]
    simp [runPerformanceComparison, mkProtoEntry]
  refine ⟨hproto, ?_, ?_, hbase, ?_⟩
  · rw [hres]
    simp [List.lookup, successEntry, hproto, hhttp]
  · rw [hres]
    simp [List.lookup, successEntry, hproto, hhttp]
  · refine ⟨calculateComparisonMetrics [mkProtoEntry "grpc" N
      (grpcPerformanceTestStream g N W d),
      mkProtoEntry "http" N (httpPerformanceTest f N W d2)], ?_, ?_⟩
    · simp [runPerformanceComparison]
    · intro p hp
      have hrel := throughputComparison_relativeTo hbase p hp
      rw [hrel]
      simp [successEntry, hproto]

/-- Witness for C10's theorem: a two-request streaming run whose single
stream settles with total duration 10ms and 2 responses. -/
theorem c10_streaming_witness :
    grpcPerformanceTestStream (fun _ => .ok (10, 2)) 2 1 10
      = .ok { protocol := "grpc-stream", totalRequests := 2, successfulRequests := 2,
              totalDuration := 10, averageLatency := .num 5, throughput := .num 200 } ∧
    (runPerformanceComparison (grpcPerformanceTestStream (fun _ => .ok (10, 2)) 2 1 10)
        (httpPerformanceTest (fun _ => .ok 5) 2 1 20) 2
        ["grpc", "http"]).results.lookup "grpc" = none :=
  have hr : grpcPerformanceTestStream (fun _ => .ok (10, 2)) 2 1 10
      = .ok { protocol := "grpc-stream", totalRequests := 2, successfulRequests := 2,
              totalDuration := 10, averageLatency := .num 5, throughput := .num 200 } := by
    norm_num [grpcPerformanceTestStream, promiseAll, jsDiv, jsMul, List.replicate,
      List.range_succ, List.range_zero]
  ⟨hr, (c10_streaming_key_and_baseline_fallback (fun _ => .ok (10, 2)) (fun _ => .ok 5)
      2 1 10 20 _ hr).2.1⟩
